import Mathlib

/-!
Verification of the sos-collector multi-node orchestrator
(`sos/collector/__init__.py`) against its natural-language specification.

Strings from the Python source are embedded as `List Char` (via `String.data`
on literals) so that splitting, scanning and concatenation arguments can be
carried out with ordinary list induction.  Machine-level concerns (SSH, the
filesystem, `tarfile`) are modelled as explicit boolean/function inputs where
a claim depends on them.
-/

/-! ### Tokenization of `--nodes` strings  (`SoSCollector.parse_node_strings`)

The Python loop collects every comma index of the raw string (plus the final
index `len(node)`) and walks them keeping a `start` cursor:

    idxs = [i for i, m in enumerate(node) if m == ','] ; idxs.append(len(node))
    start = 0 ; pos = 0
    for idx in idxs:
        pos = idx
        reg = node[start:idx]
        re.compile(re.escape(reg))        -- never raises: reg is escaped first
        if '[' in reg and ']' not in reg: continue
        nodes.append(reg.lstrip(','))
        start = idx
    if pos != len(node): nodes.append(node[pos+1:])
-/

/-- Indices of every `','` in the string, in increasing order
(`[i for i, m in enumerate(node) if m == ',']`). -/
def commaIdxs (s : List Char) : List Nat :=
  (s.enum.filter (fun p => p.2 = ',')).map (fun p => p.1)

/-- One step of the `for idx in idxs` loop of `parse_node_strings`.  State is
(`start`, `pos`, accumulated tokens).  `reg = node[start:idx]` is the Python
slice; the `re.compile(re.escape(reg))` call of the source always succeeds
(the slice is escaped before compiling) so the `except re.error` branch is
unreachable and is not represented.  `reg.lstrip(',')` is `dropWhile (= ',')`. -/
def tokLoop (s : List Char) : List Nat → Nat → Nat → List (List Char) →
    (List (List Char) × Nat)
  | [], _, pos, acc => (acc, pos)
  | idx :: rest, start, _, acc =>
    let reg := (s.drop start).take (idx - start)
    if '[' ∈ reg ∧ ']' ∉ reg then
      tokLoop s rest start idx acc
    else
      tokLoop s rest idx idx (acc ++ [reg.dropWhile (fun c => c = ',')])

/-- Tokenization of a single raw `--nodes` string, including the trailing
`if pos != len(node)` append of the source (shown dead by `tokenize_eq_fst`). -/
def tokenize (s : List Char) : List (List Char) :=
  let r := tokLoop s (commaIdxs s ++ [s.length]) 0 0 []
  if r.2 ≠ s.length then r.1 ++ [s.drop (r.2 + 1)] else r.1

/-- `SoSCollector.parse_node_strings`: tokens of every raw string are appended
to one flat list. -/
def parse_node_strings (nodes : List (List Char)) : List (List Char) :=
  nodes.foldl (fun acc n => acc ++ tokenize n) []

/-- Modelled from the spec's words: a string "contains no unbalanced `[ ]`"
when a left-to-right scan never closes a bracket that was not opened and every
opened bracket is closed (`specBracketScan s 0 = true`).  This is the spec-side
reading of the claim's split condition, used to compare against the source's
actual check. -/
def specBracketScan : List Char → Int → Bool
  | [], d => d = 0
  | c :: cs, d =>
    if c = '[' then specBracketScan cs (d + 1)
    else if c = ']' then decide (0 < d) && specBracketScan cs (d - 1)
    else specBracketScan cs d

/-- Spec-side predicate: `s` contains no unbalanced `'['`/`']'`. -/
def specNoUnbalancedBrackets (s : List Char) : Bool :=
  specBracketScan s 0

/-! ### Cluster auto-detection  (`SoSCollector.determine_cluster`)

A profile is abstracted to an identifier plus a class identifier; the Python
`issubclass` relation between profile classes is an explicit boolean relation
`sub` on class identifiers, and `check` abstracts `cluster.check_enabled()`
evaluated against the primary node already assigned to every profile.
-/

/-- A loaded cluster profile: `pid` distinguishes the instance, `cls` is the
identifier of its Python class. -/
structure Profile where
  pid : Nat
  cls : Nat
deriving DecidableEq, Repr

/-- The inner `for remaining in checks` loop of `determine_cluster`: the first
profile among the not-yet-visited ones whose class is a subclass of the
matched profile's class and whose `check_enabled()` also returns true (the
loop breaks at the first hit). -/
def findLayered (sub : Nat → Nat → Bool) (check : Profile → Bool)
    (base : Profile) (checks : List Profile) : Option Profile :=
  checks.find? (fun r => sub r.cls base.cls && check r)

/-- `SoSCollector.determine_cluster`.  The source keeps `checks`, a copy of the
registry from which each visited profile is removed (`checks.remove(cluster)`);
for a duplicate-free registry `checks` is exactly the suffix of profiles not
yet visited, which this recursion passes as `rest`.  On the first profile with
`check_enabled()` true the inner loop may replace it by a layered profile, the
result is recorded and the outer loop breaks. -/
def determine_cluster (sub : Nat → Nat → Bool) (check : Profile → Bool) :
    List Profile → Option Profile
  | [] => none
  | c :: rest =>
    if check c then some ((findLayered sub check c rest).getD c)
    else determine_cluster sub check rest

/-! ### Archive production on run completion  (`SoSCollector.collect`,
`SoSCollector.create_sos_archive`)

The end of `collect()` reads

    if self.retrieved > 0: self.create_cluster_archive()
    else: self._exit('No sosreports were collected, nothing to archive...', 1)

and `create_sos_archive` wraps the whole `tarfile` write in
`try: ... except Exception as e: self._exit('Could not create archive: %s', 2)`.
Whether the tar write succeeds is an external fact, modelled by the boolean
`tarOk`; per-file add failures inside the tar loop are caught separately and
skipped, so they never reach the outer `except`.
-/

/-- Outcome of the tail of a run: either an archive at `path` was produced, or
the process terminated through `self._exit` with the given code. -/
inductive CollectOutcome where
  | archived (path : List Char)
  | exited (code : Nat)
deriving DecidableEq, Repr

/-- `SoSCollector.create_sos_archive`: produce the archive when the tar write
succeeds, otherwise `_exit(msg, 2)`. -/
def create_sos_archive (tarOk : Bool) (path : List Char) : CollectOutcome :=
  if tarOk then CollectOutcome.archived path else CollectOutcome.exited 2

/-- The archive decision at the end of `SoSCollector.collect`: with at least
one retrieved report, attempt the archive; with none, `_exit(msg, 1)`. -/
def collect_tail (retrieved : Nat) (tarOk : Bool) (path : List Char) :
    CollectOutcome :=
  if retrieved > 0 then create_sos_archive tarOk path
  else CollectOutcome.exited 1

/-- An outcome counts as "archive produced" when it carries an archive path. -/
def archiveProduced : CollectOutcome → Bool
  | CollectOutcome.archived _ => true
  | CollectOutcome.exited _ => false

/-! ### Cluster options  (`SoSCollector.parse_cluster_options`,
`SoSCollector._validate_option`, `SoSCollector.verify_cluster_options`)

`str.split(sep)` of Python is `pySplitOn`; `str.split()` (whitespace split
discarding empty fields) is `pySplitWs`; `str.lower()` is `pyLower`
(faithful on the ASCII values these options use).
-/

/-- Python `s.split(sep)` for a one-character separator: fields between
occurrences of `sep`, keeping empty fields (`''.split('.') == ['']`). -/
def pySplitOn (sep : Char) : List Char → List (List Char)
  | [] => [[]]
  | x :: xs =>
    if x = sep then [] :: pySplitOn sep xs
    else
      match pySplitOn sep xs with
      | [] => [[x]]
      | h :: t => (x :: h) :: t

/-- Scan for `pySplitWs`: `acc` is the current word, reversed. -/
def pySplitWsAux : List Char → List Char → List (List Char)
  | [], acc => if acc = [] then [] else [acc.reverse]
  | c :: cs, acc =>
    if c.isWhitespace then
      if acc = [] then pySplitWsAux cs []
      else acc.reverse :: pySplitWsAux cs []
    else pySplitWsAux cs (c :: acc)

/-- Python `s.split()`: split on runs of whitespace, no empty fields
(`''.split() == []`, `'True'.split() == ['True']`). -/
def pySplitWs (l : List Char) : List (List Char) := pySplitWsAux l []

/-- Python `s.lower()` (ASCII). -/
def pyLower (s : List Char) : List Char := s.map Char.toLower

/-- The Python type of a cluster-option value: the declared options of a
profile carry `str`, `bool` or `int`; a CLI-supplied value is always a `str`
(`value.__class__` of the split command-line string). -/
inductive OptType where
  | str
  | bool
  | int
deriving DecidableEq, Repr

/-- A `ClusterOption` record: option name, raw value, the Python type of the
value, and the owning profile's short name. -/
structure ClusterOption where
  name : List Char
  value : List Char
  opt_type : OptType
  cluster : List Char
deriving DecidableEq, Repr

/-- One iteration of `SoSCollector.parse_cluster_options` on a raw
`-c cluster.option=value` argument:

    cluster = option.split('.')[0]
    name = option.split('.')[1].split('=')[0]
    try: value = option.split('=')[1].split()[0]
    except IndexError: value = 'True'

`none` models the uncaught `IndexError` from `option.split('.')[1]` when the
argument has no `'.'` (the `try` only protects the value computation).  The
constructed option's `opt_type` is `value.__class__`, always `str`. -/
def parse_one_cluster_option (option : List Char) : Option ClusterOption :=
  match pySplitOn '.' option with
  | [] => none
  | [_] => none
  | c :: s :: _ =>
    let name := (pySplitOn '=' s).headD []
    let value :=
      match pySplitOn '=' option with
      | _ :: v :: _ =>
        match pySplitWs v with
        | w :: _ => w
        | [] => "True".data
      | _ => "True".data
    some ⟨name, value, OptType.str, c⟩

/-- Result of `SoSCollector._validate_option`: the coerced value handed back
to the caller, or a call to `self._exit` (pre-flight fatal). -/
inductive ValidateResult where
  | ok (v : ClusterOption)
  | fatal
deriving DecidableEq, Repr

/-- `SoSCollector._validate_option(default, cli)`.  For a non-`bool` declared
type the *types* are compared (`default.opt_type == cli.opt_type`) and on
success the raw CLI value is returned unchanged; no numeric parse happens.
For `bool` the lowercased value is checked against
`['true', 'on', 'false', 'off']`. -/
def _validate_option (default cli : ClusterOption) : ValidateResult :=
  if default.opt_type ≠ OptType.bool then
    if default.opt_type ≠ cli.opt_type then ValidateResult.fatal
    else ValidateResult.ok cli
  else
    let val := pyLower cli.value
    if val ∉ ["true".data, "on".data, "false".data, "off".data] then
      ValidateResult.fatal
    else if val ∈ ["true".data, "on".data] then
      ValidateResult.ok { cli with value := "True".data, opt_type := OptType.bool }
    else
      ValidateResult.ok { cli with value := "False".data, opt_type := OptType.bool }

/-- `SoSCollector.verify_cluster_options`.  The source reads

    if self.opts.cluster_options:
        for opt in self.opts.cluster_options:
            match = False
            for clust in self.clusters:
                for option in self.clusters[clust].options: ...
        if not match:
            self._exit('Unknown cluster option provided: ...')

The `if not match` sits at the indentation level of `for opt`, i.e. *after*
the loop, so only the `match` value of the final iteration is consulted.  The
nested cluster/option loops set `match` exactly when some loaded profile
declares an option with the same name.  Returns `true` when the run proceeds
and `false` when `_exit` fires. -/
def verify_cluster_options (declared : List (List Char × List (List Char)))
    (opts : List ClusterOption) : Bool :=
  match opts with
  | [] => true
  | _ =>
    opts.foldl (fun _ opt => declared.any (fun cl => cl.2.contains opt.name)) true

/-! ### Node-set reconciliation  (`SoSCollector.reduce_node_list`)

Python `list.remove(x)` deletes the *first* occurrence of `x`; `List.erase`
has the same semantics.  The loop

    for n in self.node_list:
        if n == self.master.hostname or n == self.opts.master:
            self.node_list.remove(n)

mutates the list it iterates: the CPython iterator yields the element at its
current index and then advances, so after a removal the element that slid
into the removed slot is skipped.  `removeMatchesPyStep` reproduces this
index-based walk exactly.
-/

/-- CPython semantics of `for n in l: if p n: l.remove(n)` starting from
iterator index `i`: read `l[i]`, possibly erase the first occurrence of that
value, then continue from index `i + 1` against the mutated list. -/
def removeMatchesPyStep (p : List Char → Bool) (i : Nat) (l : List (List Char)) :
    List (List Char) :=
  if h : i < l.length then
    if p (l.get ⟨i, h⟩) then removeMatchesPyStep p (i + 1) (l.erase (l.get ⟨i, h⟩))
    else removeMatchesPyStep p (i + 1) l
  else l
termination_by l.length - i
decreasing_by
  · have he : (l.erase (l.get ⟨i, h⟩)).length ≤ l.length :=
      (List.erase_sublist _ l).length_le
    omega
  · omega

/-- The inputs of `reduce_node_list` other than the node list itself. -/
structure ReduceCtx where
  hostname : List Char
  ip_addrs : List (List Char)
  no_local : Bool
  hasMaster : Bool
  masterHostname : List Char
  optsMaster : List Char
deriving Repr

/-- `SoSCollector.reduce_node_list`: drop the local hostname when `no_local`
is set (first occurrence only), drop each local address (first occurrence
only), run the mutating master-removal loop, then `list(set(n for n in l if n))`.
The Python `set` has no defined order; `dedup` picks one representative
ordering, which is faithful for the membership and no-duplicate properties at
stake. -/
def reduce_node_list (c : ReduceCtx) (node_list : List (List Char)) :
    List (List Char) :=
  let l1 := if node_list.contains c.hostname ∧ c.no_local
    then node_list.erase c.hostname else node_list
  let l2 := c.ip_addrs.foldl
    (fun l i => if l.contains i then l.erase i else l) l1
  let l3 := if c.hasMaster
    then removeMatchesPyStep
      (fun n => n = c.masterHostname ∨ n = c.optsMaster) 0 l2
    else l2
  (l3.filter (fun n => n ≠ [])).dedup

/-! ### Agent command line  (`SoSCollector.configure_sos_cmd`)

`pipes.quote` is `shlex.quote` on Python 3: the empty string quotes to `''`,
a string of safe characters (letters, digits, and `@ % _ - + = : , . /`) is
returned unchanged,
anything else is wrapped in single quotes with every `'` replaced by
`'"'"'`.
-/

/-- Characters `shlex.quote` leaves unquoted: letters, digits, underscore and
the punctuation `@ % + = : , . / -` (ASCII word characters plus that set). -/
def shQuoteSafe (c : Char) : Bool :=
  c.isAlphanum || c = '_' || c = '@' || c = '%' || c = '+' || c = '=' ||
    c = ':' || c = ',' || c = '.' || c = '/' || c = '-'

/-- `pipes.quote` / `shlex.quote`. -/
def pyShellQuote (s : List Char) : List Char :=
  if s = [] then "''".data
  else if s.all shQuoteSafe then s
  else '\'' :: (s.flatMap
    (fun c => if c = '\'' then "'\"'\"'".data else [c])) ++ ['\'']

/-- The options `configure_sos_cmd` reads.  Python falsiness of the absent
value is the empty string for string options and `0` for `log_size`
(`case_id` defaults to `False`, `sos_opt_line` to `''`; both are modelled as
the empty string when absent). -/
structure SosCmdOpts where
  sos_opt_line : List Char
  case_id : List Char
  alloptions : Bool
  all_logs : Bool
  verify : Bool
  log_size : Nat
  sysroot : List Char
  chroot : List Char
  compression : List Char
deriving Repr

/-- The flag suffix appended on the per-flag path of `configure_sos_cmd`,
in source order after the `--log-size` append point. -/
def sosFlagSuffix (o : SosCmdOpts) : List Char :=
  (if o.sysroot ≠ [] then " -s ".data ++ pyShellQuote o.sysroot else []) ++
  (if o.chroot ≠ [] then " -c ".data ++ pyShellQuote o.chroot else []) ++
  (if o.compression ≠ [] then " -z ".data ++ pyShellQuote o.compression else [])

/-- The per-flag construction path of `configure_sos_cmd` (taken when no
`--sos-cmd` override is in effect).  `none` models the uncaught `TypeError`
raised by `quote(self.opts.log_size)`: `log_size` is an `int` (argparse
`type=int`, default `0`) and `shlex.quote` of an `int` raises, so a non-zero
`--log-size` aborts command construction before any command line exists. -/
def sosNormalPath (o : SosCmdOpts) : Option (List Char) :=
  if o.log_size ≠ 0 then none
  else some ("sosreport --batch".data ++
    (if o.case_id ≠ [] then " --case-id=".data ++ pyShellQuote o.case_id else []) ++
    (if o.alloptions then " --alloptions".data else []) ++
    (if o.all_logs then " --all-logs".data else []) ++
    (if o.verify then " --verify".data else []) ++
    sosFlagSuffix o)

/-- The shell metacharacters that make `configure_sos_cmd` reject a
user-supplied `--sos-cmd` override. -/
def sosCmdFilt : List Char := ['&', '|', '>', '<', ';']

/-- `SoSCollector.configure_sos_cmd`: start from `'sosreport --batch'`; an
override free of the filtered characters is shell-quoted and appended, ending
construction; an override containing one of them is discarded with a warning
(`self.opts.sos_opt_line = None`) and the per-flag path runs. -/
def configure_sos_cmd (o : SosCmdOpts) : Option (List Char) :=
  if o.sos_opt_line ≠ [] then
    if sosCmdFilt.any (fun f => f ∈ o.sos_opt_line) then sosNormalPath o
    else some ("sosreport --batch".data ++ [' '] ++ pyShellQuote o.sos_opt_line)
  else sosNormalPath o

/-! ### Archive naming  (`SoSCollector._get_archive_name`,
`SoSCollector._get_archive_path`)

The date string from `datetime.strftime(datetime.now(), '%Y-%m-%d')` and the
five letters from `random.choice(string.ascii_lowercase)` are external inputs
of the run, passed as arguments `date` and `rand`.
-/

/-- `SoSCollector._get_archive_name`: `'sos-collector'`, a `-label` part when
a label was given, a `-case` part when a case id was given, then
`'%s-%s-%s' % (nstr, dt, rand)`. -/
def _get_archive_name (label case_id date rand : List Char) : List Char :=
  let nstr := "sos-collector".data
  let nstr := if label ≠ [] then nstr ++ '-' :: label else nstr
  let nstr := if case_id ≠ [] then nstr ++ '-' :: case_id else nstr
  nstr ++ '-' :: date ++ '-' :: rand

/-- `SoSCollector._get_archive_path`: the source returns
`self.tmpdir + self.arc_name + '.tar.' + compr` with `compr = 'gz'` — a plain
string concatenation, with nothing between the temp directory and the
archive name. -/
def _get_archive_path (tmpdir label case_id date rand : List Char) : List Char :=
  tmpdir ++ _get_archive_name label case_id date rand ++ ".tar.".data ++ "gz".data

/-- A character of the class `[A-Za-z0-9_-]` of the spec's archive-name
regex. -/
def archClassChar (c : Char) : Bool :=
  c.isAlpha || c.isDigit || c = '_' || c = '-'

/-- Match of the fixed-length tail `-\d{4}-\d{2}-\d{2}-[a-z]{5}` of the
spec's archive-name regex (exactly 17 characters). -/
def archTailMatch : List Char → Bool
  | ['-', y1, y2, y3, y4, '-', m1, m2, '-', d1, d2, '-', r1, r2, r3, r4, r5] =>
    y1.isDigit && y2.isDigit && y3.isDigit && y4.isDigit &&
    m1.isDigit && m2.isDigit && d1.isDigit && d2.isDigit &&
    r1.isLower && r2.isLower && r3.isLower && r4.isLower && r5.isLower
  | _ => false

/-- Match of the optional-group part `(-[A-Za-z0-9_-]+)?(-[A-Za-z0-9_-]+)?`
of the spec's archive-name regex.  Because `'-'` itself belongs to the
character class, a head matches one or two groups exactly when it is empty or
consists of `'-'` followed by a non-empty run of class characters: a two-group
match `-w1-w2` is also the one-group match `-(w1-w2)`, and conversely. -/
def archHeadMatch : List Char → Bool
  | [] => true
  | '-' :: w => !w.isEmpty && w.all archClassChar
  | _ => false

/-- Modelled from the spec's words: decidable matcher for the anchored regex
`^sos-collector(-[A-Za-z0-9_-]+)?(-[A-Za-z0-9_-]+)?-\d{4}-\d{2}-\d{2}-[a-z]{5}$`.
A match must end with the rigid 17-character date/random tail, so the split
between the group part and the tail is forced to be at `length - 17`; the
group part is characterised by `archHeadMatch` as argued there. -/
def archiveNameRegexMatch (s : List Char) : Bool :=
  s.take 13 = "sos-collector".data &&
  (archHeadMatch ((s.drop 13).take ((s.drop 13).length - 17)) &&
   archTailMatch ((s.drop 13).drop ((s.drop 13).length - 17)))

/-! ## Theorems -/

/-! ### Helper lemmas for the tokenizer -/

/-- Membership of a non-comma character is unchanged by `lstrip(',')`. -/
theorem mem_dropWhile_comma {c : Char} (hc : ¬ c = ',') (l : List Char) :
    c ∈ l.dropWhile (fun x => x = ',') ↔ c ∈ l := by
  induction l with
  | nil => simp
  | cons a as ih =>
    by_cases ha : a = ','
    · subst ha
      have h1 : (',' :: as).dropWhile (fun x => x = ',') =
          as.dropWhile (fun x => x = ',') := by
        simp [List.dropWhile_cons]
      rw [h1, ih, List.mem_cons]
      exact (or_iff_right hc).symm
    · simp [List.dropWhile_cons, ha]

/-- The final cursor of `tokLoop` is the last processed index: `pos := idx`
happens in both branches of the loop body. -/
theorem tokLoop_snd_append (s : List Char) (idxs : List Nat) :
    ∀ (n start pos : Nat) (acc : List (List Char)),
      (tokLoop s (idxs ++ [n]) start pos acc).2 = n := by
  induction idxs with
  | nil =>
    intro n start pos acc
    rw [List.nil_append, tokLoop]
    split
    · rfl
    · rfl
  | cons i rest ih =>
    intro n start pos acc
    rw [List.cons_append, tokLoop]
    split
    · apply ih
    · apply ih

/-- The trailing `if pos != len(node)` append of `parse_node_strings` is dead
code: the index list ends with `len(node)` and the loop body cannot fail
before `pos = idx`, so after the loop `pos == len(node)` always holds. -/
theorem tokenize_eq_fst (s : List Char) :
    tokenize s = (tokLoop s (commaIdxs s ++ [s.length]) 0 0 []).1 := by
  unfold tokenize
  simp [tokLoop_snd_append]

/-- Every token appended by the comma loop comes from a slice `reg` that
passed the `'[' in reg and ']' not in reg` test, so a token containing `'['`
also contains `']'`. -/
theorem tokLoop_bracket_inv (s : List Char) (idxs : List Nat) :
    ∀ (start pos : Nat) (acc : List (List Char)),
      (∀ t ∈ acc, '[' ∈ t → ']' ∈ t) →
      ∀ t ∈ (tokLoop s idxs start pos acc).1, '[' ∈ t → ']' ∈ t := by
  induction idxs with
  | nil => intro start pos acc hacc t ht; exact hacc t ht
  | cons idx rest ih =>
    intro start pos acc hacc t ht
    rw [tokLoop] at ht
    split at ht
    · exact ih start idx acc hacc t ht
    · rename_i hcond
      refine ih idx idx _ ?_ t ht
      intro u hu
      rcases List.mem_append.mp hu with hu | hu
      · exact hacc u hu
      · rcases List.mem_singleton.mp hu with rfl
        intro hbl
        have hreg : '[' ∈ ((s.drop start).take (idx - start)) :=
          (mem_dropWhile_comma (by decide) _).mp hbl
        have hrb : ']' ∈ ((s.drop start).take (idx - start)) := by
          by_contra hnb
          exact hcond ⟨hreg, hnb⟩
        exact (mem_dropWhile_comma (by decide) _).mpr hrb

/-- The bracket invariant holds of every token of `tokenize`. -/
theorem tokenize_bracket_inv (s : List Char) :
    ∀ t ∈ tokenize s, '[' ∈ t → ']' ∈ t := by
  rw [tokenize_eq_fst]
  exact tokLoop_bracket_inv s _ 0 0 [] (by simp)

/-- The bracket invariant holds of every token of `parse_node_strings`. -/
theorem parse_node_strings_bracket_inv (nodes : List (List Char)) :
    ∀ t ∈ parse_node_strings nodes, '[' ∈ t → ']' ∈ t := by
  suffices h : ∀ (ns : List (List Char)) (acc : List (List Char)),
      (∀ t ∈ acc, '[' ∈ t → ']' ∈ t) →
      ∀ t ∈ ns.foldl (fun a nd => a ++ tokenize nd) acc, '[' ∈ t → ']' ∈ t by
    exact h nodes [] (by simp)
  intro ns
  induction ns with
  | nil => intro acc hacc; exact hacc
  | cons nd rest ih =>
    intro acc hacc t ht
    refine ih (acc ++ tokenize nd) ?_ t ht
    intro u hu
    rcases List.mem_append.mp hu with hu | hu
    · exact hacc u hu
    · exact tokenize_bracket_inv nd u hu

/-! ### Claim C1 -/

/-- Claim C1, counterexample.  The claim says a comma splits only when the
prefix up to it is a compilable regex *containing no unbalanced `[ ]`*.  For
the input `'a],b'` the prefix `'a]'` before the comma is a compilable regex
(a lone `']'` outside a class is a literal) but contains an unbalanced `']'`
(`specNoUnbalancedBrackets "a]" = false`), so under the claim the comma must
remain part of the preceding token, giving the single token `'a],b'`.  The
code nevertheless splits — its only effective test is `'[' in reg and ']'
not in reg`, and the `re.compile(re.escape(reg))` guard never fails — so the
result is `['a]', 'b']`. -/
theorem C1_counterexample :
    parse_node_strings ["a],b".data] = ["a]".data, "b".data]
    ∧ specNoUnbalancedBrackets "a]".data = false
    ∧ parse_node_strings ["a],b".data] ≠ ["a],b".data] := by
  refine ⟨by decide, by decide, by decide⟩

/-- Claim C1, amended.  Tokenization splits at a comma exactly when the slice
since the last split point does not contain a `'['` without any `']'` (the
compilability test of the source is applied to the *escaped* slice and never
fails, so it imposes nothing); consequently no produced token contains `'['`
without `']'`.  The input `'web-[0-3],db-[0-1]'` tokenizes to
`['web-[0-3]', 'db-[0-1]']`, a comma retained by the bracket rule stays in
its token (`'a[,b]'` stays whole), and empty input yields an empty token
list. -/
theorem C1_amended :
    (∀ (nodes : List (List Char)) (t : List Char),
      t ∈ parse_node_strings nodes → '[' ∈ t → ']' ∈ t)
    ∧ parse_node_strings ["web-[0-3],db-[0-1]".data] =
        ["web-[0-3]".data, "db-[0-1]".data]
    ∧ parse_node_strings ["a[,b]".data] = ["a[,b]".data]
    ∧ parse_node_strings [] = [] := by
  exact ⟨fun nodes => parse_node_strings_bracket_inv nodes, by decide, by decide, rfl⟩

/-- Witness for `C1_amended`: instantiating the bracket invariant on
the token `'db-[0-1]'` of the claim's own example input. -/
theorem C1_amended_witness : ']' ∈ "db-[0-1]".data :=
  C1_amended.1 ["web-[0-3],db-[0-1]".data] "db-[0-1]".data
    (by decide) (by decide)

/-! ### Helper lemma for cluster detection -/

/-- `List.find?` returns the unique element satisfying the predicate. -/
theorem find_eq_of_unique_match {α : Type} (p : α → Bool) (l : List α) (a : α)
    (ha : a ∈ l) (hpa : p a = true) (hu : ∀ b ∈ l, p b = true → b = a) :
    l.find? p = some a := by
  induction l with
  | nil => cases ha
  | cons x xs ih =>
    by_cases hx : p x = true
    · rw [List.find?_cons_of_pos _ hx]
      exact congrArg some (hu x (List.mem_cons_self x xs) hx)
    · rw [List.find?_cons_of_neg _ hx]
      rcases List.mem_cons.mp ha with rfl | ha2
      · exact absurd hpa hx
      · exact ih ha2 (fun b hb hpb => hu b (List.mem_cons_of_mem x hb) hpb)

/-! ### Claim C2 -/

/-- Claim C2, counterexample.  Registry order `[B, D1, D2]` with classes
`0, 1, 2`; `sub` makes both class 1 and class 2 subclasses of class 0, and
every profile's `check_enabled()` returns true.  Taking the claim's pair
`(B, D) = (⟨0,0⟩, ⟨2,2⟩)`: `B` matches, `D`'s class is a subclass of `B`'s
and `D` matches, yet the selected profile is `⟨1,1⟩` — the *first* matching
derived profile — and not `D`.  So "the profile selected for the run is D"
fails for this pair. -/
theorem C2_counterexample :
    determine_cluster (fun a b => decide (b = 0 ∧ (a = 1 ∨ a = 2)))
        (fun _ => true) [⟨0, 0⟩, ⟨1, 1⟩, ⟨2, 2⟩] = some ⟨1, 1⟩
    ∧ (fun (a b : Nat) => decide (b = 0 ∧ (a = 1 ∨ a = 2)))
        (Profile.cls ⟨2, 2⟩) (Profile.cls ⟨0, 0⟩) = true
    ∧ (⟨1, 1⟩ : Profile) ≠ ⟨2, 2⟩ := by
  refine ⟨by decide, by decide, by decide⟩

/-- Claim C2, amended.  When `B` is the first profile in registry order whose
check matches, `D` is a later profile whose class is a subclass of `B`'s
class and whose check also matches, and `D` is the only such derived profile,
then the profile selected for the run is `D`, not `B`.  (With several
matching derived profiles the code keeps the first one in order, which is
what the counterexample exhibits.) -/
theorem C2_amended (sub : Nat → Nat → Bool) (check : Profile → Bool)
    (pre post : List Profile) (B D : Profile)
    (hpre : ∀ p ∈ pre, check p = false) (hB : check B = true)
    (hD : D ∈ post) (hsub : sub D.cls B.cls = true) (hDc : check D = true)
    (huniq : ∀ q ∈ post, sub q.cls B.cls = true → check q = true → q = D) :
    determine_cluster sub check (pre ++ B :: post) = some D := by
  induction pre with
  | nil =>
    rw [List.nil_append, determine_cluster, if_pos hB, findLayered,
      find_eq_of_unique_match _ post D hD (by simp [hsub, hDc])
        (fun b hb hpb => by
          have hb1 : sub b.cls B.cls = true := by
            have := (Bool.and_eq_true _ _).mp hpb
            exact this.1
          have hb2 : check b = true := ((Bool.and_eq_true _ _).mp hpb).2
          exact huniq b hb hb1 hb2)]
    rfl
  | cons x xs ih =>
    rw [List.cons_append, determine_cluster,
      if_neg (by simp [hpre x (List.mem_cons_self x xs)])]
    exact ih (fun p hp => hpre p (List.mem_cons_of_mem x hp))

/-- Witness for `C2_amended`: base `⟨0,0⟩` matches first, the unique
matching derived profile `⟨1,1⟩` is selected. -/
theorem C2_amended_witness :
    determine_cluster (fun a b => decide (a = 1 ∧ b = 0)) (fun _ => true)
      ([] ++ ⟨0, 0⟩ :: [⟨1, 1⟩]) = some ⟨1, 1⟩ :=
  C2_amended (fun a b => decide (a = 1 ∧ b = 0)) (fun _ => true)
    [] [⟨1, 1⟩] ⟨0, 0⟩ ⟨1, 1⟩ (by simp) rfl (by simp) (by decide) rfl
    (by intro q hq h1 h2; simpa using hq)

/-! ### Claim C3 -/

/-- Claim C3, counterexample.  With one retrieved report but a failing tar
write (`tarOk = false`) the run exits with code 2 and produces no archive,
so "with at least one retrieved file the archive is always created" — and
with it the claimed equivalence — fails. -/
theorem C3_counterexample :
    collect_tail 1 false "p".data = CollectOutcome.exited 2
    ∧ archiveProduced (collect_tail 1 false "p".data) = false
    ∧ 0 < 1 := by
  refine ⟨by decide, by decide, by decide⟩

/-- Claim C3, amended.  An archive is produced only if the retrieved count is
positive; with at least one retrieved file the archive is created whenever
the tar write succeeds and the process exits with code 2 when it fails; with
zero retrieved files no archive is created and the process exits with
code 1. -/
theorem C3_amended (r : Nat) (t : Bool) (p : List Char) :
    (archiveProduced (collect_tail r t p) = true → 0 < r)
    ∧ (0 < r → t = true → collect_tail r t p = CollectOutcome.archived p)
    ∧ (0 < r → t = false → collect_tail r t p = CollectOutcome.exited 2)
    ∧ (r = 0 → collect_tail r t p = CollectOutcome.exited 1) := by
  refine ⟨?_, ?_, ?_, ?_⟩
  · intro h
    by_contra hr
    have hr0 : r = 0 := by omega
    subst hr0
    simp [collect_tail, archiveProduced] at h
  · intro hr ht
    subst ht
    simp [collect_tail, create_sos_archive, hr]
  · intro hr ht
    subst ht
    simp [collect_tail, create_sos_archive, hr]
  · intro hr
    subst hr
    simp [collect_tail]

/-- Witness for `C3_amended` at `retrieved = 1`, a succeeding tar
write. -/
theorem C3_amended_witness :
    collect_tail 1 true "p".data = CollectOutcome.archived "p".data :=
  (C3_amended 1 true "p".data).2.1 (by decide) rfl

/-! ### Claim C4 -/

/-- Claim C4, counterexample.  The claim says an int-typed declared option
parses its value as strict base-10, fatal only for non-numeric values.  But a
CLI-supplied value always carries Python type `str`
(`value.__class__` of the split string), and for a non-bool declared option
`_validate_option` only compares types — so `-c prof.num=5`, a perfectly
numeric value for the int-typed option `num`, is a pre-flight fatal, and no
base-10 parse exists anywhere on the path. -/
theorem C4_counterexample :
    parse_one_cluster_option "prof.num=5".data =
      some ⟨"num".data, "5".data, OptType.str, "prof".data⟩
    ∧ _validate_option ⟨"num".data, "0".data, OptType.int, "prof".data⟩
        ⟨"num".data, "5".data, OptType.str, "prof".data⟩ =
      ValidateResult.fatal := by
  refine ⟨by decide, by decide⟩

/-- Claim C4, amended.  For a bool-typed declared option the string values
`true`/`on`/`false`/`off` (case-insensitively) coerce to the corresponding
boolean and any other value is a pre-flight fatal; for an int-typed declared
option *every* CLI-supplied value is a pre-flight fatal, because the CLI
value always has string type and `_validate_option` performs no numeric
conversion. -/
theorem C4_amended (d cli : ClusterOption) :
    (d.opt_type = OptType.bool →
      _validate_option d cli =
        (if pyLower cli.value ∈ ["true".data, "on".data] then
          ValidateResult.ok
            { cli with value := "True".data, opt_type := OptType.bool }
        else if pyLower cli.value ∈ ["false".data, "off".data] then
          ValidateResult.ok
            { cli with value := "False".data, opt_type := OptType.bool }
        else ValidateResult.fatal))
    ∧ (d.opt_type = OptType.int → cli.opt_type = OptType.str →
        _validate_option d cli = ValidateResult.fatal) := by
  constructor
  · intro hd
    unfold _validate_option
    rw [if_neg (by simp [hd])]
    by_cases ht : pyLower cli.value = "true".data
    · simp +decide [ht]
    · by_cases hon : pyLower cli.value = "on".data
      · simp +decide [hon]
      · by_cases hf : pyLower cli.value = "false".data
        · simp +decide [hf]
        · by_cases hoff : pyLower cli.value = "off".data
          · simp +decide [hoff]
          · simp [ht, hon, hf, hoff]
  · intro hd hcli
    unfold _validate_option
    rw [if_pos (by simp [hd]), if_pos (by simp [hd, hcli])]

/-- Witness for `C4_amended`: the case-insensitive coercion of
`-c ovirt.no-database=FaLsE` to the boolean false. -/
theorem C4_amended_witness :
    _validate_option ⟨"no-database".data, "True".data, OptType.bool, "ovirt".data⟩
      ⟨"no-database".data, "FaLsE".data, OptType.str, "ovirt".data⟩ =
    ValidateResult.ok
      ⟨"no-database".data, "False".data, OptType.bool, "ovirt".data⟩ :=
  ((C4_amended
      ⟨"no-database".data, "True".data, OptType.bool, "ovirt".data⟩
      ⟨"no-database".data, "FaLsE".data, OptType.str, "ovirt".data⟩).1 rfl).trans
    (by decide)

/-! ### Claim C5 -/

/-- Claim C5, code-bug evidence.  One loaded profile declares the single
option `good`.  Supplying `[bad, good]` must, per the claim (and the spec),
terminate pre-flight because `bad` matches no declared option.  But the
source's `if not match` sits after the `for opt` loop rather than inside it,
so only the last supplied option is consulted: the run proceeds
(`verify_cluster_options = true`) even though `bad` is unknown, while the
reordered input `[good, bad]` does exit.  (The per-iteration `match = False`
reset shows the check was meant to run once per option.) -/
theorem C5_code_bug_evidence :
    verify_cluster_options [("c1".data, ["good".data])]
      [⟨"bad".data, "True".data, OptType.str, "c1".data⟩,
       ⟨"good".data, "True".data, OptType.str, "c1".data⟩] = true
    ∧ ([("c1".data, ["good".data])].any
        (fun cl => cl.2.contains "bad".data)) = false
    ∧ verify_cluster_options [("c1".data, ["good".data])]
      [⟨"good".data, "True".data, OptType.str, "c1".data⟩,
       ⟨"bad".data, "True".data, OptType.str, "c1".data⟩] = false := by
  refine ⟨by decide, by decide, by decide⟩

/-! ### Claim C6 -/

/-- Claim C6, code-bug evidence.  With the explicit primary `m` occurring
twice in the node list (for example enumerated twice by a cluster profile, or
repeated on the command line), the master-removal loop of
`reduce_node_list` removes the first copy and then — because it mutates the
list it iterates — skips over the element that slid into its place, so one
copy of `m` survives into the final reconciled list, contradicting "the
explicit primary never appears in it".  The spec's own design notes flag this
mutation-during-iteration pattern and state the intended semantics is to
remove all matches. -/
theorem C6_code_bug_evidence :
    reduce_node_list ⟨"h".data, [], false, true, "m".data, "m".data⟩
      ["m".data, "m".data] = ["m".data]
    ∧ "m".data ∈ reduce_node_list ⟨"h".data, [], false, true, "m".data, "m".data⟩
      ["m".data, "m".data] := by
  constructor
  · simp only [reduce_node_list]
    norm_num
    rw [removeMatchesPyStep]
    norm_num
    rw [removeMatchesPyStep]
    norm_num
  · simp only [reduce_node_list]
    norm_num
    rw [removeMatchesPyStep]
    norm_num
    rw [removeMatchesPyStep]
    norm_num

/-! ### Claim C7 -/

/-- Any command line produced by the per-flag path extends the literal
`'sosreport --batch'`. -/
theorem sosNormalPath_shape (o : SosCmdOpts) (cmd : List Char)
    (h : sosNormalPath o = some cmd) :
    ∃ rest, cmd = "sosreport --batch".data ++ rest := by
  unfold sosNormalPath at h
  split at h
  · cases h
  · refine ⟨(if o.case_id ≠ [] then " --case-id=".data ++ pyShellQuote o.case_id
        else []) ++
      ((if o.alloptions then " --alloptions".data else []) ++
      ((if o.all_logs then " --all-logs".data else []) ++
      ((if o.verify then " --verify".data else []) ++ sosFlagSuffix o))), ?_⟩
    rw [← Option.some.inj h]
    simp [List.append_assoc]

/-- Claim C7.  The agent command line, whenever one is produced, starts with
the literal `'sosreport --batch'`; a supplied `--sos-cmd` override free of
the characters `&`, `|`, `>`, `<`, `;` is shell-quoted verbatim and replaces
all other flags; an override containing one of those characters is rejected
(with a warning) and the run takes exactly the normal per-flag construction
path, as if no override had been supplied. -/
theorem C7_main (o : SosCmdOpts) :
    (∀ cmd, configure_sos_cmd o = some cmd →
      ∃ rest, cmd = "sosreport --batch".data ++ rest)
    ∧ (o.sos_opt_line ≠ [] →
        (sosCmdFilt.any (fun f => f ∈ o.sos_opt_line)) = false →
        configure_sos_cmd o =
          some ("sosreport --batch".data ++ ' ' :: pyShellQuote o.sos_opt_line))
    ∧ (o.sos_opt_line ≠ [] →
        (sosCmdFilt.any (fun f => f ∈ o.sos_opt_line)) = true →
        configure_sos_cmd o = configure_sos_cmd { o with sos_opt_line := [] }) := by
  refine ⟨?_, ?_, ?_⟩
  · intro cmd h
    unfold configure_sos_cmd at h
    split_ifs at h
    · exact sosNormalPath_shape o cmd h
    · refine ⟨' ' :: pyShellQuote o.sos_opt_line, ?_⟩
      rw [← Option.some.inj h]
      simp [List.append_assoc]
    · exact sosNormalPath_shape o cmd h
  · intro h1 h2
    unfold configure_sos_cmd
    rw [if_pos h1, if_neg (by simp [h2])]
    simp [List.append_assoc]
  · intro h1 h2
    unfold configure_sos_cmd
    rw [if_pos h1, if_pos (by simp [h2])]
    rfl

/-- Witness for `C7_main`: the override `'-o juju'` is accepted and
quoted verbatim after the base literal. -/
theorem C7_witness :
    configure_sos_cmd ⟨"-o juju".data, [], false, false, false, 0, [], [], []⟩ =
      some "sosreport --batch '-o juju'".data :=
  ((C7_main ⟨"-o juju".data, [], false, false, false, 0, [], [], []⟩).2.1
    (by decide) (by decide)).trans (by decide)

/-! ### Claim C8 -/

/-- Claim C8, counterexample.  The label (and the case id) are interpolated
into the archive root name verbatim, with no validation: `--label a.b`
produces the root name `sos-collector-a.b-2026-10-12-abcde`, whose `'.'`
falls outside the regex's `[A-Za-z0-9_-]` class, so the name does not match
`^sos-collector(-[A-Za-z0-9_-]+)?(-[A-Za-z0-9_-]+)?-\d\x7b4\x7d-\d\x7b2\x7d-\d\x7b2\x7d-[a-z]\x7b5\x7d$`
although the archive is produced all the same. -/
theorem C8_counterexample :
    _get_archive_name "a.b".data [] "2026-10-12".data "abcde".data =
      "sos-collector-a.b-2026-10-12-abcde".data
    ∧ archiveNameRegexMatch "sos-collector-a.b-2026-10-12-abcde".data = false := by
  refine ⟨by decide, by decide⟩

/-- Normal form of `_get_archive_name`: the base literal followed by the
optional label and case groups and the date/random tail. -/
theorem get_archive_name_eq (label case_id date rand : List Char) :
    _get_archive_name label case_id date rand =
      "sos-collector".data ++
        (((if label ≠ [] then '-' :: label else []) ++
          (if case_id ≠ [] then '-' :: case_id else [])) ++
         ('-' :: date ++ '-' :: rand)) := by
  unfold _get_archive_name
  by_cases hl : label = [] <;> by_cases hc : case_id = [] <;>
    simp [hl, hc, List.append_assoc]

/-- The optional label/case part of the root name matches the group part of
the regex whenever both strings consist of class characters. -/
theorem archHeadMatch_groups (label case_id : List Char)
    (hl : label.all archClassChar = true) (hc : case_id.all archClassChar = true) :
    archHeadMatch ((if label ≠ [] then '-' :: label else []) ++
      (if case_id ≠ [] then '-' :: case_id else [])) = true := by
  by_cases h1 : label = []
  · by_cases h2 : case_id = []
    · simp [h1, h2, archHeadMatch]
    · obtain ⟨a, as, rfl⟩ := List.exists_cons_of_ne_nil h2
      simp [h1, archHeadMatch]
      simpa using hc
  · obtain ⟨a, as, rfl⟩ := List.exists_cons_of_ne_nil h1
    by_cases h2 : case_id = []
    · simp [h2, archHeadMatch]
      simpa using hl
    · obtain ⟨b, bs, rfl⟩ := List.exists_cons_of_ne_nil h2
      have hl2 := hl
      have hc2 := hc
      simp [List.all_cons] at hl2 hc2
      simp +decide [archHeadMatch, List.all_append, List.all_cons,
        hl2.1, hc2.1]
      exact ⟨hl2.2, hc2.2⟩

/-- Claim C8, amended.  Every produced archive's root name matches the
spec's regex *provided* the label and the case id consist only of characters
from `[A-Za-z0-9_-]` (they are interpolated verbatim, so any other character
breaks the pattern); the date from `strftime('%Y-%m-%d')` is four, two and
two digits separated by dashes and the random suffix is five lowercase
letters, as the code guarantees. -/
theorem C8_amended (label case_id date rand : List Char)
    (hl : label.all archClassChar = true) (hc : case_id.all archClassChar = true)
    (hd : ∃ y1 y2 y3 y4 m1 m2 d1 d2 : Char,
      date = [y1, y2, y3, y4, '-', m1, m2, '-', d1, d2] ∧
      (y1.isDigit = true ∧ y2.isDigit = true ∧ y3.isDigit = true ∧
       y4.isDigit = true ∧ m1.isDigit = true ∧ m2.isDigit = true ∧
       d1.isDigit = true ∧ d2.isDigit = true))
    (hr : ∃ r1 r2 r3 r4 r5 : Char,
      rand = [r1, r2, r3, r4, r5] ∧
      (r1.isLower = true ∧ r2.isLower = true ∧ r3.isLower = true ∧
       r4.isLower = true ∧ r5.isLower = true)) :
    archiveNameRegexMatch (_get_archive_name label case_id date rand) = true := by
  obtain ⟨y1, y2, y3, y4, m1, m2, d1, d2, rfl,
    hy1, hy2, hy3, hy4, hm1, hm2, hd1, hd2⟩ := hd
  obtain ⟨r1, r2, r3, r4, r5, rfl, hr1, hr2, hr3, hr4, hr5⟩ := hr
  rw [get_archive_name_eq]
  unfold archiveNameRegexMatch
  have hbase : ("sos-collector".data).length = 13 := by decide
  rw [List.take_left' hbase, List.drop_left' hbase]
  set head := (if label ≠ [] then '-' :: label else []) ++
    (if case_id ≠ [] then '-' :: case_id else []) with hhead
  set tail := '-' :: [y1, y2, y3, y4, '-', m1, m2, '-', d1, d2] ++
    '-' :: [r1, r2, r3, r4, r5] with htail
  have htlen : tail.length = 17 := by simp [htail]
  have hsplit : (head ++ tail).length - 17 = head.length := by
    simp [List.length_append, htlen]
  rw [hsplit, List.take_left, List.drop_left]
  rw [archHeadMatch_groups label case_id hl hc]
  simp only [Bool.true_and, htail]
  simp [archTailMatch, hy1, hy2, hy3, hy4, hm1, hm2, hd1, hd2,
    hr1, hr2, hr3, hr4, hr5]

/-- Witness for `C8_amended`: label `lbl`, no case id, the date
`2026-10-12` and random suffix `abcde`. -/
theorem C8_amended_witness :
    archiveNameRegexMatch
      (_get_archive_name "lbl".data [] "2026-10-12".data "abcde".data) = true :=
  C8_amended "lbl".data [] "2026-10-12".data "abcde".data
    (by decide) (by decide)
    ⟨'2', '0', '2', '6', '1', '0', '1', '2', by decide⟩
    ⟨'a', 'b', 'c', 'd', 'e', by decide⟩

/-! ### Claim C9 -/

/-- Claim C9, counterexample.  `_get_archive_path` returns
`self.tmpdir + self.arc_name + '.tar.' + compr` — plain concatenation.  With
temp directory `/tmp/sos.x` the produced path is
`/tmp/sos.xsos-collector-2026-10-12-abcde.tar.gz`, not the claimed
`/tmp/sos.x/sos-collector-2026-10-12-abcde.tar.gz`: no path separator is
inserted between the directory and the file name. -/
theorem C9_counterexample :
    _get_archive_path "/tmp/sos.x".data [] [] "2026-10-12".data "abcde".data =
      "/tmp/sos.xsos-collector-2026-10-12-abcde.tar.gz".data
    ∧ "/tmp/sos.xsos-collector-2026-10-12-abcde.tar.gz".data ≠
      "/tmp/sos.x/sos-collector-2026-10-12-abcde.tar.gz".data := by
  refine ⟨by decide, by decide⟩

/-- Claim C9, amended.  The archive's on-disk path is the temp directory
string concatenated directly with the archive root name and `.tar.gz`, with
no separator inserted; in particular it never equals the form with a `/`
between the directory and the file name (the two differ in length), so the
file sits inside the temp directory only when the configured temp-directory
string itself ends with a separator. -/
theorem C9_amended (tmpdir label case_id date rand : List Char) :
    _get_archive_path tmpdir label case_id date rand =
      tmpdir ++ (_get_archive_name label case_id date rand ++ ".tar.gz".data)
    ∧ _get_archive_path tmpdir label case_id date rand ≠
      tmpdir ++ '/' :: (_get_archive_name label case_id date rand ++ ".tar.gz".data) := by
  constructor
  · unfold _get_archive_path
    have h : (".tar.".data ++ "gz".data : List Char) = ".tar.gz".data := by decide
    rw [List.append_assoc, List.append_assoc, h]
  · intro h
    have hlen := congrArg List.length h
    simp [_get_archive_path, List.length_append] at hlen

/-- Witness for `C9_amended` at a concrete temp directory. -/
theorem C9_amended_witness :
    _get_archive_path "/tmp/sos.x".data "lbl".data [] "2026-10-12".data
      "abcde".data =
    "/tmp/sos.x".data ++
      (_get_archive_name "lbl".data [] "2026-10-12".data "abcde".data ++
       ".tar.gz".data) :=
  (C9_amended "/tmp/sos.x".data "lbl".data [] "2026-10-12".data
    "abcde".data).1

/-! ### Helper lemmas for cluster-option parsing -/

/-- `s.split(sep)` never returns an empty list. -/
theorem pySplitOn_ne_nil (sep : Char) (l : List Char) : pySplitOn sep l ≠ [] := by
  cases l with
  | nil => simp [pySplitOn]
  | cons x xs =>
    rw [pySplitOn]
    split
    · simp
    · rcases h : pySplitOn sep xs with _ | ⟨a, b⟩ <;> simp [h]

/-- `s.split(sep)` with no separator present returns the whole string. -/
theorem pySplitOn_no_sep (sep : Char) (l : List Char) (h : sep ∉ l) :
    pySplitOn sep l = [l] := by
  induction l with
  | nil => rfl
  | cons x xs ih =>
    have hx : ¬ x = sep := by
      rintro rfl
      exact h (List.mem_cons_self x xs)
    have hxs : sep ∉ xs := fun hm => h (List.mem_cons_of_mem _ hm)
    rw [pySplitOn, if_neg hx, ih hxs]

/-- Splitting at the first separator occurrence peels off the prefix. -/
theorem pySplitOn_append_cons (sep : Char) (l1 l2 : List Char) (h : sep ∉ l1) :
    pySplitOn sep (l1 ++ sep :: l2) = l1 :: pySplitOn sep l2 := by
  induction l1 with
  | nil => simp [pySplitOn]
  | cons x xs ih =>
    have hx : ¬ x = sep := by
      rintro rfl
      exact h (List.mem_cons_self x xs)
    have hxs : sep ∉ xs := fun hm => h (List.mem_cons_of_mem _ hm)
    rw [List.cons_append, pySplitOn, if_neg hx, ih hxs]

/-- The first field of `s.split(sep)` is the longest separator-free prefix. -/
theorem pySplitOn_headD (sep : Char) (l : List Char) :
    (pySplitOn sep l).headD [] = l.takeWhile (fun c => !(c = sep)) := by
  induction l with
  | nil => rfl
  | cons x xs ih =>
    rw [pySplitOn]
    by_cases hx : x = sep
    · rw [if_pos hx]
      simp [List.takeWhile_cons, hx]
    · rw [if_neg hx]
      rcases hsp : pySplitOn sep xs with _ | ⟨a, b⟩
      · exact absurd hsp (pySplitOn_ne_nil sep xs)
      · rw [hsp] at ih
        simp [List.takeWhile_cons, hx] at ih ⊢
        exact ih

/-- `takeWhile` passes through a prefix on which the predicate always holds. -/
theorem takeWhile_append_all {α : Type} (p : α → Bool) (l1 l2 : List α)
    (h : ∀ c ∈ l1, p c = true) :
    (l1 ++ l2).takeWhile p = l1 ++ l2.takeWhile p := by
  induction l1 with
  | nil => simp
  | cons x xs ih =>
    rw [List.cons_append, List.takeWhile_cons, if_pos (h x (List.mem_cons_self x xs)),
      ih (fun c hc => h c (List.mem_cons_of_mem x hc)), List.cons_append]

/-- `takeWhile` never reaches the second part when the predicate fails
somewhere in the first. -/
theorem takeWhile_append_stop {α : Type} (p : α → Bool) (l1 l2 : List α)
    (h : ∃ c ∈ l1, p c = false) :
    (l1 ++ l2).takeWhile p = l1.takeWhile p := by
  induction l1 with
  | nil =>
    rcases h with ⟨c, hc, _⟩
    cases hc
  | cons x xs ih =>
    by_cases hx : p x = true
    · have h2 : ∃ c ∈ xs, p c = false := by
        rcases h with ⟨c, hc, hpc⟩
        rcases List.mem_cons.mp hc with rfl | hc2
        · rw [hx] at hpc
          cases hpc
        · exact ⟨c, hc2, hpc⟩
      rw [List.cons_append, List.takeWhile_cons, if_pos hx,
        List.takeWhile_cons, if_pos hx, ih h2]
    · have hx' : ¬ p x = true := hx
      rw [List.cons_append, List.takeWhile_cons, if_neg hx',
        List.takeWhile_cons, if_neg hx']

/-! ### Claim C10 -/

/-- Claim C10.  A `-c` argument of the form `profile.name` with no `'='`
anywhere parses with the raw string value `'True'`, and yields exactly the
same `ClusterOption` record as `profile.name=True` — so the two are treated
identically by everything downstream, including the bool coercion of
`_validate_option`. -/
theorem C10_main (p n : List Char) (hp : '.' ∉ p) (hep : '=' ∉ p)
    (hen : '=' ∉ n) :
    parse_one_cluster_option (p ++ '.' :: n) =
      parse_one_cluster_option ((p ++ '.' :: n) ++ "=True".data)
    ∧ (parse_one_cluster_option (p ++ '.' :: n)).map ClusterOption.value =
      some "True".data := by
  have hq : ('=' : Char) ∉ "True".data := by decide
  have hsep1 : ('=' : Char) ∉ p ++ '.' :: n := by
    intro hm
    rcases List.mem_append.mp hm with hm | hm
    · exact hep hm
    · rcases List.mem_cons.mp hm with hm | hm
      · exact absurd hm (by decide)
      · exact hen hm
  rcases hn : pySplitOn '.' n with _ | ⟨a, b⟩
  · exact absurd hn (pySplitOn_ne_nil '.' n)
  rcases hn2 : pySplitOn '.' (n ++ "=True".data) with _ | ⟨a2, b2⟩
  · exact absurd hn2 (pySplitOn_ne_nil _ _)
  have hs2 : (p ++ '.' :: n) ++ "=True".data = p ++ '.' :: (n ++ "=True".data) := by
    simp [List.append_assoc]
  have hdot1 : pySplitOn '.' (p ++ '.' :: n) = p :: a :: b := by
    rw [pySplitOn_append_cons '.' p n hp, hn]
  have hdot2 : pySplitOn '.' ((p ++ '.' :: n) ++ "=True".data) = p :: a2 :: b2 := by
    rw [hs2, pySplitOn_append_cons '.' p _ hp, hn2]
  have heq1 : pySplitOn '=' (p ++ '.' :: n) = [p ++ '.' :: n] :=
    pySplitOn_no_sep '=' _ hsep1
  have ht : ("=True".data : List Char) = '=' :: "True".data := by decide
  have heq2 : pySplitOn '=' ((p ++ '.' :: n) ++ "=True".data) =
      [p ++ '.' :: n, "True".data] := by
    rw [ht, pySplitOn_append_cons '=' _ _ hsep1, pySplitOn_no_sep '=' _ hq]
  have ha : a = n.takeWhile (fun c => !(c = '.')) := by
    have hh := pySplitOn_headD '.' n
    rw [hn] at hh
    simpa using hh
  have ha2 : a2 = (n ++ "=True".data).takeWhile (fun c => !(c = '.')) := by
    have hh := pySplitOn_headD '.' (n ++ "=True".data)
    rw [hn2] at hh
    simpa using hh
  have hname : (pySplitOn '=' a).headD [] = (pySplitOn '=' a2).headD [] := by
    by_cases hdn : ('.' : Char) ∈ n
    · have h12 : a2 = a := by
        rw [ha, ha2, takeWhile_append_stop _ _ _ ⟨'.', hdn, by simp⟩]
      rw [h12]
    · have hnd : ∀ c ∈ n, (!decide (c = '.')) = true := by
        intro c hc
        have hcne : ¬ c = '.' := fun e => hdn (e ▸ hc)
        simp [hcne]
      have hnq : ∀ c ∈ n, (!decide (c = '=')) = true := by
        intro c hc
        have hcne : ¬ c = '=' := fun e => hen (e ▸ hc)
        simp [hcne]
      have han : a = n := by
        rw [ha]
        exact List.takeWhile_eq_self_iff.mpr hnd
      have h6 : List.takeWhile (fun c => !decide (c = '.'))
          "=True".data = "=True".data := by decide
      have han2 : a2 = n ++ "=True".data := by
        rw [ha2, takeWhile_append_all _ _ _ hnd, h6]
      have h5 : List.takeWhile (fun c => !decide (c = '='))
          ('=' :: "True".data) = [] := by decide
      have h3 : List.takeWhile (fun c => !decide (c = '='))
          (n ++ '=' :: "True".data) = n := by
        rw [takeWhile_append_all _ _ _ hnq, h5, List.append_nil]
      rw [han, han2, pySplitOn_headD, pySplitOn_headD, ht, h3]
      exact List.takeWhile_eq_self_iff.mpr hnq
  have hws : pySplitWs "True".data = ["True".data] := by decide
  constructor
  · unfold parse_one_cluster_option
    rw [hdot1, hdot2, heq1, heq2]
    simp [hws]
    simpa using hname
  · unfold parse_one_cluster_option
    rw [hdot1, heq1]
    simp

/-- Witness for `C10_main` on `-c ovirt.no-database`. -/
theorem C10_witness :
    (parse_one_cluster_option ("ovirt".data ++ '.' :: "no-database".data)).map
      ClusterOption.value = some "True".data :=
  (C10_main "ovirt".data "no-database".data (by decide) (by decide)
    (by decide)).2
